/-
Verification of the oci-instance-hunter repository against its
natural-language specification.

The development shallowly embeds the two Python source files:
  * src/create_instance.py — the hunter: error classification inside
    `create_instance`, the zone / fault-domain attempt loop of `main`,
    the sentinel-file gate, and the helper functions
    `check_if_instance_exists`, `get_all_availability_domains`,
    `get_fault_domains`, `create_success_flag`.
  * src/helper_scripts.py — the diagnostics CLI `main`.

External effects (SDK calls, file existence, exceptions raised by the
provider) are modelled by an environment record whose fields give the
outcome of each effectful operation; the embedded `main` returns the
process exit code together with a trace of the effectful events it
performed, so that "no network call is made" is the statement that the
trace contains no such event.
-/
import Mathlib

namespace OciHunter

/-! ### Strings and substring containment

Python's `pat in msg` on `str` is substring containment.  We model
messages as `List Char` (obtained from Lean `String`s via `toList`) and
define containment recursively. -/

/-- `isPrefixL p m` is true when the list `p` is an initial segment of `m`. -/
def isPrefixL : List Char → List Char → Bool
  | [], _ => true
  | _ :: _, [] => false
  | a :: p, b :: m => a == b && isPrefixL p m

/-- `strContains p m` is true when `p` occurs as a contiguous sublist of
`m`; this models Python's `p in m` on strings. -/
def strContains (p : List Char) : List Char → Bool
  | [] => p.isEmpty
  | c :: rest => isPrefixL p (c :: rest) || strContains p rest

theorem isPrefixL_iff : ∀ (p m : List Char), isPrefixL p m = true ↔ ∃ t, m = p ++ t := by
  intro p
  induction p with
  | nil => intro m; simp [isPrefixL]
  | cons a p ih =>
    intro m
    cases m with
    | nil => simp [isPrefixL]
    | cons b m =>
      simp only [isPrefixL, Bool.and_eq_true, beq_iff_eq, ih]
      constructor
      · rintro ⟨rfl, t, rfl⟩; exact ⟨t, rfl⟩
      · rintro ⟨t, h⟩
        cases h
        exact ⟨rfl, t, rfl⟩

theorem strContains_iff : ∀ (p m : List Char),
    strContains p m = true ↔ ∃ s t, m = s ++ (p ++ t) := by
  intro p m
  induction m with
  | nil =>
    simp only [strContains, List.isEmpty_iff]
    constructor
    · rintro rfl; exact ⟨[], [], rfl⟩
    · rintro ⟨s, t, h⟩
      rcases List.append_eq_nil.mp h.symm with ⟨rfl, h2⟩
      exact (List.append_eq_nil.mp h2).1
  | cons c rest ih =>
    simp only [strContains, Bool.or_eq_true, isPrefixL_iff, ih]
    constructor
    · rintro (⟨t, h⟩ | ⟨s, t, rfl⟩)
      · exact ⟨[], t, by simpa using h⟩
      · exact ⟨c :: s, t, rfl⟩
    · rintro ⟨s, t, h⟩
      cases s with
      | nil => exact Or.inl ⟨t, by simpa using h⟩
      | cons d s =>
        simp only [List.cons_append, List.cons.injEq] at h
        exact Or.inr ⟨s, t, h.2⟩

/-! ### Error classification (src/create_instance.py, `create_instance`) -/

/-- The three error kinds of the classifier (`error_type` strings
`'capacity'`, `'quota'`, `'other'` in the source). -/
inductive ErrorType
  | capacity
  | quota
  | other
deriving DecidableEq

/-- A provider compute instance, as far as the program inspects it. -/
structure Instance where
  id : String
  lifecycle_state : String
deriving DecidableEq

/-- Outcome of the underlying SDK `launch_instance` call: the call
returns an instance, raises `oci.exceptions.ServiceError` (with a
human-readable message and a code), or raises some other exception. -/
inductive LaunchOutcome
  | launched (inst : Instance)
  | serviceError (message : String) (code : String)
  | unexpectedExc
deriving DecidableEq

/-- The tuple `(success, instance, error_type)` returned by
`create_instance`, collapsed to a tagged result. -/
inductive AttemptResult
  | success (inst : Instance)
  | failure (kind : ErrorType)
deriving DecidableEq

/-- `str(e.message).lower()` — the lowercased error message. -/
def loweredMsg (message : String) : List Char := message.toList.map Char.toLower

def capacityPat : List Char := "capacity".toList
def outOfHostCapacityPat : List Char := "out of host capacity".toList
def quotaPat : List Char := "quota".toList
def limitPat : List Char := "limit".toList

/-- Models `create_instance` (src/create_instance.py lines 228–317)
restricted to its observable result: on a `ServiceError` the message is
lowercased and classified by ordered case-insensitive substring tests
(`capacity`/`out of host capacity`, then `quota`/`limit`, else other);
any other exception yields `other`; a normal return is success. -/
def create_instance (outcome : LaunchOutcome) : AttemptResult :=
  match outcome with
  | .launched inst => .success inst
  | .serviceError message _ =>
    let error_msg := loweredMsg message
    if strContains capacityPat error_msg || strContains outOfHostCapacityPat error_msg then
      .failure .capacity
    else if strContains quotaPat error_msg || strContains limitPat error_msg then
      .failure .quota
    else
      .failure .other
  | .unexpectedExc => .failure .other

theorem oohc_decomp : outOfHostCapacityPat = "out of host ".toList ++ capacityPat := by
  decide

/-- A message containing "out of host capacity" contains "capacity". -/
theorem capacity_of_oohc (m : List Char)
    (h : strContains outOfHostCapacityPat m = true) :
    strContains capacityPat m = true := by
  rw [strContains_iff] at h ⊢
  obtain ⟨s, t, rfl⟩ := h
  exact ⟨s ++ "out of host ".toList, t, by rw [oohc_decomp]; simp⟩

/-- C1. The error classifier is exactly the ordered case-insensitive
substring rule: if the lowercased message contains "capacity" the
outcome is `Capacity` (regardless of other substrings); otherwise if it
contains "quota" or "limit" the outcome is `QuotaOrLimit`; otherwise —
including any unexpected exception instead of a provider service
error — the outcome is `Other`. -/
theorem C1_error_classifier (message code : String) :
    (strContains capacityPat (loweredMsg message) = true →
      create_instance (.serviceError message code) = .failure .capacity) ∧
    (strContains capacityPat (loweredMsg message) = false →
      (strContains quotaPat (loweredMsg message) = true ∨
       strContains limitPat (loweredMsg message) = true) →
      create_instance (.serviceError message code) = .failure .quota) ∧
    (strContains capacityPat (loweredMsg message) = false →
      strContains quotaPat (loweredMsg message) = false →
      strContains limitPat (loweredMsg message) = false →
      create_instance (.serviceError message code) = .failure .other) ∧
    create_instance .unexpectedExc = .failure .other := by
  refine ⟨?_, ?_, ?_, rfl⟩
  · intro h
    simp [create_instance, h]
  · intro hcap hql
    have hoohc : strContains outOfHostCapacityPat (loweredMsg message) = false := by
      cases hh : strContains outOfHostCapacityPat (loweredMsg message) with
      | false => rfl
      | true => rw [capacity_of_oohc _ hh] at hcap; cases hcap
    rcases hql with h | h <;> simp [create_instance, hcap, hoohc, h]
  · intro hcap hq hl
    have hoohc : strContains outOfHostCapacityPat (loweredMsg message) = false := by
      cases hh : strContains outOfHostCapacityPat (loweredMsg message) with
      | false => rfl
      | true => rw [capacity_of_oohc _ hh] at hcap; cases hcap
    simp [create_instance, hcap, hoohc, hq, hl]

/-- Witness for C1 at concrete messages: "Out of host CAPACITY and quota
exceeded" classifies as capacity even though "quota" is present; "Service
limit exceeded" as quota; "Internal error" as other. -/
theorem C1_error_classifier_witness :
    create_instance (.serviceError "Out of host CAPACITY and quota exceeded" "500") =
      .failure .capacity ∧
    create_instance (.serviceError "Service limit exceeded" "400") = .failure .quota ∧
    create_instance (.serviceError "Internal error" "500") = .failure .other :=
  ⟨(C1_error_classifier "Out of host CAPACITY and quota exceeded" "500").1 (by decide),
   (C1_error_classifier "Service limit exceeded" "400").2.1 (by decide)
     (Or.inr (by decide)),
   (C1_error_classifier "Internal error" "500").2.2.1 (by decide) (by decide) (by decide)⟩

/-! ### The hunter's effectful environment and event trace

`main` in src/create_instance.py interacts with the outside world
through: the sentinel flag file, the `.env` config file, the SSH key
file, OCI client construction, `list_instances` (existence check),
`list_availability_domains`, `list_fault_domains`, `launch_instance`
and `time.sleep`.  The environment below records each operation's
outcome; the embedded `main` returns the exit code, the event trace in
execution order, and the final values of the two counters. -/

/-- Effectful events performed by a run, in order. -/
inductive Event
  | clientInit
  | existCheck
  | enumADs
  | enumFDs (ad : String)
  | launch (ad : String) (fd : Option String)
  | sleep
  | writeFlag (instId : String)
deriving DecidableEq

/-- Environment of one run: command-line flags, file-system state and
the outcome of each provider call.  `availabilityDomainCfg` is the
`AVAILABILITY_DOMAIN` setting (`none` when unset or empty, which Python
treats as falsy).  `Except Unit` models a call that may raise. -/
structure Env where
  flagFileExists : Bool
  force : Bool
  dryRun : Bool
  noCycle : Bool
  envFileExists : Bool
  availabilityDomainCfg : Option String
  sshKeyExists : Bool
  clientInitOk : Bool
  listInstancesRes : Except Unit (List Instance)
  listADsRes : Except Unit (List String)
  listFDsRes : String → Except Unit (List String)
  launchRes : String → Option String → LaunchOutcome

/-- Models `check_if_instance_exists` (lines 154–181): list instances
with the configured display name, keep the non-terminated ones, return
the first or `None`; any exception is caught and yields `None`. -/
def check_if_instance_exists (res : Except Unit (List Instance)) : Option Instance :=
  match res with
  | .ok instances =>
    (instances.filter (fun i =>
      !(i.lifecycle_state == "TERMINATED" || i.lifecycle_state == "TERMINATING"))).head?
  | .error _ => none

/-- Models `get_all_availability_domains` (lines 184–202): return the
listed names; any exception is caught and yields the empty list. -/
def get_all_availability_domains (res : Except Unit (List String)) : List String :=
  match res with
  | .ok ads => ads
  | .error _ => []

/-- Models `get_fault_domains` (lines 205–225): return the listed names;
any exception is caught (logged as a warning) and yields the empty list. -/
def get_fault_domains (res : Except Unit (List String)) : List String :=
  match res with
  | .ok fds => fds
  | .error _ => []

/-- Mutable state of the attempt loop: the two counters of `main`
(lines 451–452) plus the event trace accumulated so far. -/
structure LoopSt where
  total_attempts : Nat
  capacity_errors : Nat
  trace : List Event
deriving DecidableEq

/-- Result of a whole run: exit code, full event trace, and the final
counter values. -/
structure RunResult where
  exitCode : Nat
  trace : List Event
  total_attempts : Nat
  capacity_errors : Nat
deriving DecidableEq

/-- The inner `for fd in attempts` loop of `main` (lines 466–514) for
one availability domain `ad` whose fault-domain list is `fds`; `numADs`
is `len(availability_domains)`.  Returns `.inl` with the updated state
when the pending attempts are exhausted (loop falls through to the next
zone) and `.inr` with a final result when the run returns from inside
the loop (success, or a non-capacity error). -/
def runAttempts (launch : String → Option String → LaunchOutcome)
    (numADs : Nat) (ad : String) (fds : List String) :
    List (Option String) → LoopSt → LoopSt ⊕ RunResult
  | [], st => .inl st
  | fd :: rest, st =>
    let st1 : LoopSt :=
      { st with total_attempts := st.total_attempts + 1,
                trace := st.trace ++ [.launch ad fd] }
    match create_instance (launch ad fd) with
    | .success inst =>
      .inr { exitCode := 0,
             trace := st1.trace ++ [.writeFlag inst.id],
             total_attempts := st1.total_attempts,
             capacity_errors := st1.capacity_errors }
    | .failure .capacity =>
      let st2 : LoopSt := { st1 with capacity_errors := st1.capacity_errors + 1 }
      let st3 : LoopSt :=
        if st2.total_attempts < numADs * (1 + fds.length) then
          { st2 with trace := st2.trace ++ [.sleep] }
        else st2
      runAttempts launch numADs ad fds rest st3
    | .failure _ =>
      .inr { exitCode := 1,
             trace := st1.trace,
             total_attempts := st1.total_attempts,
             capacity_errors := st1.capacity_errors }

/-- The outer `for ad in availability_domains` loop of `main`
(lines 454–514); falling out of the loop reaches the
"All attempts failed" epilogue, which returns 1 (lines 516–535). -/
def runZones (launch : String → Option String → LaunchOutcome)
    (listFDs : String → Except Unit (List String)) (numADs : Nat) :
    List String → LoopSt → RunResult
  | [], st =>
    { exitCode := 1, trace := st.trace,
      total_attempts := st.total_attempts, capacity_errors := st.capacity_errors }
  | ad :: rest, st =>
    let fds := get_fault_domains (listFDs ad)
    let st1 : LoopSt := { st with trace := st.trace ++ [.enumFDs ad] }
    match runAttempts launch numADs ad fds ([none] ++ fds.map some) st1 with
    | .inl st2 => runZones launch listFDs numADs rest st2
    | .inr r => r

/-- Models `main` of src/create_instance.py (lines 329–535). -/
def main (env : Env) : RunResult :=
  -- flag-file gate (lines 353–364)
  if env.flagFileExists && !env.force then
    { exitCode := 0, trace := [], total_attempts := 0, capacity_errors := 0 }
  -- load_config exits 1 when .env is missing (lines 96–101)
  else if !env.envFileExists then
    { exitCode := 1, trace := [], total_attempts := 0, capacity_errors := 0 }
  -- SSH key load (lines 380–385)
  else if !env.sshKeyExists then
    { exitCode := 1, trace := [], total_attempts := 0, capacity_errors := 0 }
  -- client construction (lines 389–395)
  else if !env.clientInitOk then
    { exitCode := 1, trace := [.clientInit], total_attempts := 0, capacity_errors := 0 }
  else
    -- existence check (lines 397–416)
    match check_if_instance_exists env.listInstancesRes with
    | some inst =>
      { exitCode := 0,
        trace := [.clientInit, .existCheck] ++
          (if !env.flagFileExists then [.writeFlag inst.id] else []),
        total_attempts := 0, capacity_errors := 0 }
    | none =>
      -- dry-run stop (lines 418–421)
      if env.dryRun then
        { exitCode := 0, trace := [.clientInit, .existCheck],
          total_attempts := 0, capacity_errors := 0 }
      else
        -- determine the availability domains to try (lines 423–442)
        if env.noCycle || env.availabilityDomainCfg.isSome then
          match env.availabilityDomainCfg with
          | some ad =>
            runZones env.launchRes env.listFDsRes 1 [ad]
              { total_attempts := 0, capacity_errors := 0,
                trace := [.clientInit, .existCheck] }
          | none =>
            { exitCode := 1, trace := [.clientInit, .existCheck],
              total_attempts := 0, capacity_errors := 0 }
        else
          let ads := get_all_availability_domains env.listADsRes
          if ads.isEmpty then
            { exitCode := 1, trace := [.clientInit, .existCheck, .enumADs],
              total_attempts := 0, capacity_errors := 0 }
          else
            runZones env.launchRes env.listFDsRes ads.length ads
              { total_attempts := 0, capacity_errors := 0,
                trace := [.clientInit, .existCheck, .enumADs] }

/-- Projection of a trace to the creation calls it contains. -/
def launchesOf (tr : List Event) : List (String × Option String) :=
  tr.filterMap (fun e => match e with | .launch ad fd => some (ad, fd) | _ => none)

/-- Projection of a trace to the sentinel-file writes it contains. -/
def flagWritesOf (tr : List Event) : List String :=
  tr.filterMap (fun e => match e with | .writeFlag i => some i | _ => none)

/-! ### Trace projection lemmas -/

@[simp] theorem launchesOf_nil : launchesOf [] = [] := rfl

@[simp] theorem flagWritesOf_nil : flagWritesOf [] = [] := rfl

@[simp] theorem launchesOf_append (a b : List Event) :
    launchesOf (a ++ b) = launchesOf a ++ launchesOf b := by
  simp [launchesOf]

@[simp] theorem flagWritesOf_append (a b : List Event) :
    flagWritesOf (a ++ b) = flagWritesOf a ++ flagWritesOf b := by
  simp [flagWritesOf]

@[simp] theorem launchesOf_cons_launch (ad : String) (fd : Option String) (tr : List Event) :
    launchesOf (Event.launch ad fd :: tr) = (ad, fd) :: launchesOf tr := rfl

@[simp] theorem launchesOf_cons_sleep (tr : List Event) :
    launchesOf (Event.sleep :: tr) = launchesOf tr := rfl

@[simp] theorem launchesOf_cons_enumFDs (ad : String) (tr : List Event) :
    launchesOf (Event.enumFDs ad :: tr) = launchesOf tr := rfl

@[simp] theorem launchesOf_cons_enumADs (tr : List Event) :
    launchesOf (Event.enumADs :: tr) = launchesOf tr := rfl

@[simp] theorem launchesOf_cons_clientInit (tr : List Event) :
    launchesOf (Event.clientInit :: tr) = launchesOf tr := rfl

@[simp] theorem launchesOf_cons_existCheck (tr : List Event) :
    launchesOf (Event.existCheck :: tr) = launchesOf tr := rfl

@[simp] theorem launchesOf_cons_writeFlag (i : String) (tr : List Event) :
    launchesOf (Event.writeFlag i :: tr) = launchesOf tr := rfl

@[simp] theorem flagWritesOf_cons_launch (ad : String) (fd : Option String) (tr : List Event) :
    flagWritesOf (Event.launch ad fd :: tr) = flagWritesOf tr := rfl

@[simp] theorem flagWritesOf_cons_sleep (tr : List Event) :
    flagWritesOf (Event.sleep :: tr) = flagWritesOf tr := rfl

@[simp] theorem flagWritesOf_cons_enumFDs (ad : String) (tr : List Event) :
    flagWritesOf (Event.enumFDs ad :: tr) = flagWritesOf tr := rfl

@[simp] theorem flagWritesOf_cons_enumADs (tr : List Event) :
    flagWritesOf (Event.enumADs :: tr) = flagWritesOf tr := rfl

@[simp] theorem flagWritesOf_cons_clientInit (tr : List Event) :
    flagWritesOf (Event.clientInit :: tr) = flagWritesOf tr := rfl

@[simp] theorem flagWritesOf_cons_existCheck (tr : List Event) :
    flagWritesOf (Event.existCheck :: tr) = flagWritesOf tr := rfl

@[simp] theorem flagWritesOf_cons_writeFlag (i : String) (tr : List Event) :
    flagWritesOf (Event.writeFlag i :: tr) = i :: flagWritesOf tr := rfl

/-! ### A flat reference loop over (zone, fault-domain) pairs

The nested zone / fault-domain loops of `main`, observed through exit
code, counters, launched pairs, and sentinel writes, are equivalent to
one flat left-to-right pass over the flattened pair list: each pair is
launched; success ends the run, a capacity error counts and continues,
anything else ends the run fatally.  `flatLoop` is that pass; the
lemmas below prove the equivalence and the claims are read off it. -/

/-- How the flat pass ended. -/
inductive FlatCode
  | exhausted
  | fatal
  | succeeded
deriving DecidableEq

/-- Observables of the flat pass: how it ended, both counters, the
pairs actually launched (in order), and the created instance id. -/
structure FlatOut where
  code : FlatCode
  total : Nat
  capErrs : Nat
  launched : List (String × Option String)
  instId : Option String
deriving DecidableEq

/-- One flat pass over the pending pair list. -/
def flatLoop (launch : String → Option String → LaunchOutcome) :
    List (String × Option String) → Nat → Nat → FlatOut
  | [], t, c => { code := .exhausted, total := t, capErrs := c, launched := [], instId := none }
  | p :: rest, t, c =>
    match create_instance (launch p.1 p.2) with
    | .success inst =>
      { code := .succeeded, total := t + 1, capErrs := c, launched := [p], instId := some inst.id }
    | .failure .capacity =>
      let r := flatLoop launch rest (t + 1) (c + 1)
      { r with launched := p :: r.launched }
    | .failure _ =>
      { code := .fatal, total := t + 1, capErrs := c, launched := [p], instId := none }

/-- The attempt-pair list of one zone: the unpinned attempt first, then
each fault domain in order (`attempts = [None] + fault_domains`). -/
def zonePairs (ad : String) (fds : List String) : List (String × Option String) :=
  ([none] ++ fds.map some).map (fun fd => (ad, fd))

/-- The flattened pair list of the whole search space. -/
def allPairs (listFDs : String → Except Unit (List String)) (ads : List String) :
    List (String × Option String) :=
  ads.flatMap (fun ad => zonePairs ad (get_fault_domains (listFDs ad)))

/-- Agreement between a flat-pass outcome and an inner-loop outcome,
relative to the trace accumulated before the zone. -/
def Agrees (prevTrace : List Event) (out : FlatOut) : LoopSt ⊕ RunResult → Prop
  | .inl st2 =>
    out.code = .exhausted ∧ out.instId = none ∧
    st2.total_attempts = out.total ∧ st2.capacity_errors = out.capErrs ∧
    launchesOf st2.trace = launchesOf prevTrace ++ out.launched ∧
    flagWritesOf st2.trace = flagWritesOf prevTrace
  | .inr r =>
    out.code ≠ .exhausted ∧
    r.exitCode = (if out.code = .succeeded then 0 else 1) ∧
    r.total_attempts = out.total ∧ r.capacity_errors = out.capErrs ∧
    launchesOf r.trace = launchesOf prevTrace ++ out.launched ∧
    flagWritesOf r.trace = flagWritesOf prevTrace ++ out.instId.toList

/-- The inner attempt loop agrees with the flat pass on its pending
list. -/
theorem runAttempts_flat (launch : String → Option String → LaunchOutcome)
    (numADs : Nat) (ad : String) (fds : List String) :
    ∀ pending st,
      Agrees st.trace
        (flatLoop launch (pending.map (fun fd => (ad, fd)))
          st.total_attempts st.capacity_errors)
        (runAttempts launch numADs ad fds pending st) := by
  intro pending
  induction pending with
  | nil =>
    intro st
    simp [runAttempts, flatLoop, Agrees]
  | cons fd rest ih =>
    intro st
    rcases hcl : create_instance (launch ad fd) with inst | kind
    · simp [runAttempts, flatLoop, hcl, Agrees]
    · cases kind with
      | capacity =>
        simp only [runAttempts, flatLoop, List.map_cons, hcl]
        split
        · have h2 := ih { st with
            total_attempts := st.total_attempts + 1,
            capacity_errors := st.capacity_errors + 1,
            trace := st.trace ++ [Event.launch ad fd] ++ [Event.sleep] }
          rcases hrec : runAttempts launch numADs ad fds rest { st with
            total_attempts := st.total_attempts + 1,
            capacity_errors := st.capacity_errors + 1,
            trace := st.trace ++ [Event.launch ad fd] ++ [Event.sleep] } with st2 | r <;>
            rw [hrec] at h2 <;>
            simp only [Agrees] at h2 ⊢ <;>
            simp_all
        · have h2 := ih { st with
            total_attempts := st.total_attempts + 1,
            capacity_errors := st.capacity_errors + 1,
            trace := st.trace ++ [Event.launch ad fd] }
          rcases hrec : runAttempts launch numADs ad fds rest { st with
            total_attempts := st.total_attempts + 1,
            capacity_errors := st.capacity_errors + 1,
            trace := st.trace ++ [Event.launch ad fd] } with st2 | r <;>
            rw [hrec] at h2 <;>
            simp only [Agrees] at h2 ⊢ <;>
            simp_all
      | quota => simp [runAttempts, flatLoop, hcl, Agrees]
      | other => simp [runAttempts, flatLoop, hcl, Agrees]

/-- The flat pass over an appended list runs the first part, then the
second when the first part was exhausted. -/
theorem flatLoop_append (launch : String → Option String → LaunchOutcome) :
    ∀ (l1 l2 : List (String × Option String)) (t c : Nat),
      flatLoop launch (l1 ++ l2) t c =
        (let r1 := flatLoop launch l1 t c
         if r1.code = .exhausted then
           let r2 := flatLoop launch l2 r1.total r1.capErrs
           { r2 with launched := r1.launched ++ r2.launched }
         else r1) := by
  intro l1
  induction l1 with
  | nil => intro l2 t c; simp [flatLoop]
  | cons p l1 ih =>
    intro l2 t c
    rcases hcl : create_instance (launch p.1 p.2) with inst | kind
    · simp [flatLoop, hcl]
    · cases kind with
      | capacity =>
        simp only [List.cons_append, flatLoop, hcl]
        have happ : l1.append l2 = l1 ++ l2 := rfl
        rw [happ, ih]
        by_cases h : (flatLoop launch l1 (t + 1) (c + 1)).code = FlatCode.exhausted <;>
          simp [h]
      | quota => simp [flatLoop, hcl]
      | other => simp [flatLoop, hcl]

/-- Agreement between a flat-pass outcome and a whole-run result. -/
def RAgrees (prevTrace : List Event) (out : FlatOut) (r : RunResult) : Prop :=
  r.exitCode = (if out.code = .succeeded then 0 else 1) ∧
  r.total_attempts = out.total ∧ r.capacity_errors = out.capErrs ∧
  launchesOf r.trace = launchesOf prevTrace ++ out.launched ∧
  flagWritesOf r.trace = flagWritesOf prevTrace ++ out.instId.toList

/-- The zone loop of `main` agrees with the flat pass over the
flattened pair list of its zones. -/
theorem runZones_flat (launch : String → Option String → LaunchOutcome)
    (listFDs : String → Except Unit (List String)) (numADs : Nat) :
    ∀ (ads : List String) (st : LoopSt),
      RAgrees st.trace
        (flatLoop launch (allPairs listFDs ads) st.total_attempts st.capacity_errors)
        (runZones launch listFDs numADs ads st) := by
  intro ads
  induction ads with
  | nil =>
    intro st
    simp [runZones, allPairs, flatLoop, RAgrees]
  | cons ad rest ih =>
    intro st
    have hsplit : allPairs listFDs (ad :: rest) =
        zonePairs ad (get_fault_domains (listFDs ad)) ++ allPairs listFDs rest := by
      simp [allPairs]
    rw [hsplit, flatLoop_append, runZones]
    simp only [zonePairs]
    have h1 := runAttempts_flat launch numADs ad (get_fault_domains (listFDs ad))
      ([none] ++ (get_fault_domains (listFDs ad)).map some)
      { st with trace := st.trace ++ [Event.enumFDs ad] }
    rcases hrec : runAttempts launch numADs ad (get_fault_domains (listFDs ad))
        ([none] ++ (get_fault_domains (listFDs ad)).map some)
        { st with trace := st.trace ++ [Event.enumFDs ad] } with st2 | r <;>
      rw [hrec] at h1 <;> simp only [Agrees] at h1 <;> simp only [hrec]
    · -- inner loop exhausted: continue with the remaining zones
      obtain ⟨hcode, hinst, htot, hcap, hlau, hfw⟩ := h1
      have h2 := ih st2
      rw [htot, hcap] at h2
      simp only [RAgrees] at h2 ⊢
      simp only [hcode, if_true]
      obtain ⟨e1, e2, e3, e4, e5⟩ := h2
      refine ⟨by simpa using e1, by simpa using e2, by simpa using e3, ?_, ?_⟩
      · rw [e4, hlau]
        simp
      · rw [e5, hfw]
        simp
    · -- inner loop returned: the run is over
      obtain ⟨hcode, hexit, htot, hcap, hlau, hfw⟩ := h1
      simp only [RAgrees, if_neg hcode]
      refine ⟨hexit, htot, hcap, ?_, ?_⟩
      · rw [hlau]; simp
      · rw [hfw]; simp

/-- The availability-domain search space determined by lines 423–442:
either the configured zone alone, or the non-empty enumerated list. -/
def SearchSpace (env : Env) (ads : List String) : Prop :=
  (∃ ad, env.availabilityDomainCfg = some ad ∧ ads = [ad]) ∨
  (env.availabilityDomainCfg = none ∧ env.noCycle = false ∧
   get_all_availability_domains env.listADsRes = ads ∧ ads ≠ [])

/-- All pre-loop gates of `main` pass and the attempt loop runs over
the zones `ads`. -/
def ReachesLoop (env : Env) (ads : List String) : Prop :=
  (env.flagFileExists = false ∨ env.force = true) ∧
  env.envFileExists = true ∧ env.sshKeyExists = true ∧ env.clientInitOk = true ∧
  check_if_instance_exists env.listInstancesRes = none ∧
  env.dryRun = false ∧ SearchSpace env ads

/-- Whenever the run reaches the attempt loop, `main` agrees with the
flat pass over the flattened pair list, started from zero counters. -/
theorem main_flat (env : Env) (ads : List String) (h : ReachesLoop env ads) :
    RAgrees [] (flatLoop env.launchRes (allPairs env.listFDsRes ads) 0 0) (main env) := by
  obtain ⟨hgate, henv, hssh, hcli, hex, hdry, hspace⟩ := h
  have hfg : (env.flagFileExists && !env.force) = false := by
    rcases hgate with h | h <;> simp [h]
  rcases hspace with ⟨ad, hcfg, rfl⟩ | ⟨hcfg, hnc, hads, hne⟩
  · have h1 := runZones_flat env.launchRes env.listFDsRes 1 [ad]
      { total_attempts := 0, capacity_errors := 0,
        trace := [Event.clientInit, Event.existCheck] }
    simp only [main, hfg, henv, hssh, hcli, hex, hdry, hcfg]
    simp only [RAgrees] at h1 ⊢
    simpa using h1
  · have hie : ads.isEmpty = false := by
      cases ads with
      | nil => exact absurd rfl hne
      | cons a l => rfl
    have h1 := runZones_flat env.launchRes env.listFDsRes ads.length ads
      { total_attempts := 0, capacity_errors := 0,
        trace := [Event.clientInit, Event.existCheck, Event.enumADs] }
    simp only [main, hfg, henv, hssh, hcli, hex, hdry, hcfg, hnc, hads, hie]
    simp only [RAgrees] at h1 ⊢
    simpa using h1

/-- If every pair in the list hits a capacity error, the flat pass
exhausts the whole list, launching every pair and counting every
attempt as a capacity error. -/
theorem flatLoop_all_capacity (launch : String → Option String → LaunchOutcome) :
    ∀ (l : List (String × Option String)) (t c : Nat),
      (∀ p ∈ l, create_instance (launch p.1 p.2) = .failure .capacity) →
      flatLoop launch l t c =
        { code := .exhausted, total := t + l.length, capErrs := c + l.length,
          launched := l, instId := none } := by
  intro l
  induction l with
  | nil => intro t c _; simp [flatLoop]
  | cons p rest ih =>
    intro t c h
    have hp := h p (List.mem_cons_self _ _)
    simp only [flatLoop, hp]
    rw [ih (t + 1) (c + 1) (fun q hq => h q (List.mem_cons_of_mem _ hq))]
    have h1 : t + 1 + rest.length = t + (rest.length + 1) := by omega
    have h2 : c + 1 + rest.length = c + (rest.length + 1) := by omega
    simp [h1, h2]

/-- A prefix of capacity errors is passed through by the flat pass. -/
theorem flatLoop_capacity_prefix (launch : String → Option String → LaunchOutcome) :
    ∀ (P l : List (String × Option String)) (t c : Nat),
      (∀ q ∈ P, create_instance (launch q.1 q.2) = .failure .capacity) →
      flatLoop launch (P ++ l) t c =
        (let r := flatLoop launch l (t + P.length) (c + P.length)
         { r with launched := P ++ r.launched }) := by
  intro P
  induction P with
  | nil => intro l t c _; simp
  | cons q P ih =>
    intro l t c h
    have hq := h q (List.mem_cons_self _ _)
    simp only [List.cons_append, flatLoop, hq]
    have happ : P.append l = P ++ l := rfl
    rw [happ, ih l (t + 1) (c + 1) (fun p hp => h p (List.mem_cons_of_mem _ hp))]
    have h1 : t + 1 + P.length = t + (P.length + 1) := by omega
    have h2 : c + 1 + P.length = c + (P.length + 1) := by omega
    simp [h1, h2]

/-- A head pair classified quota or other ends the flat pass fatally at
once, with that pair as the only launch. -/
theorem flatLoop_head_fatal (launch : String → Option String → LaunchOutcome)
    (p : String × Option String) (R : List (String × Option String)) (t c : Nat)
    (h : create_instance (launch p.1 p.2) = .failure .quota ∨
         create_instance (launch p.1 p.2) = .failure .other) :
    flatLoop launch (p :: R) t c =
      { code := .fatal, total := t + 1, capErrs := c, launched := [p], instId := none } := by
  rcases h with h | h <;> simp [flatLoop, h]

/-- A head pair classified capacity is counted and passed through. -/
theorem flatLoop_head_capacity (launch : String → Option String → LaunchOutcome)
    (p : String × Option String) (R : List (String × Option String)) (t c : Nat)
    (h : create_instance (launch p.1 p.2) = .failure .capacity) :
    flatLoop launch (p :: R) t c =
      (let r := flatLoop launch R (t + 1) (c + 1)
       { r with launched := p :: r.launched }) := by
  simp [flatLoop, h]

/-- The head pair of a non-empty pending list is always launched. -/
theorem flatLoop_head_launched (launch : String → Option String → LaunchOutcome)
    (p : String × Option String) (R : List (String × Option String)) (t c : Nat) :
    ∃ tail, (flatLoop launch (p :: R) t c).launched = p :: tail := by
  rcases hcl : create_instance (launch p.1 p.2) with inst | kind
  · exact ⟨[], by simp [flatLoop, hcl]⟩
  · cases kind with
    | capacity =>
      exact ⟨(flatLoop launch R (t + 1) (c + 1)).launched, by simp [flatLoop, hcl]⟩
    | quota => exact ⟨[], by simp [flatLoop, hcl]⟩
    | other => exact ⟨[], by simp [flatLoop, hcl]⟩

/-- A singleton pending list launches exactly its pair, whatever the
outcome. -/
theorem flatLoop_singleton_launched (launch : String → Option String → LaunchOutcome)
    (p : String × Option String) (t c : Nat) :
    (flatLoop launch [p] t c).launched = [p] := by
  rcases hcl : create_instance (launch p.1 p.2) with inst | kind
  · simp [flatLoop, hcl]
  · cases kind <;> simp [flatLoop, hcl]

/-- The capacity-error counter never decreases along the flat pass. -/
theorem flatLoop_capErrs_ge (launch : String → Option String → LaunchOutcome) :
    ∀ (l : List (String × Option String)) (t c : Nat),
      c ≤ (flatLoop launch l t c).capErrs := by
  intro l
  induction l with
  | nil => intro t c; simp [flatLoop]
  | cons p rest ih =>
    intro t c
    rcases hcl : create_instance (launch p.1 p.2) with inst | kind
    · simp [flatLoop, hcl]
    · cases kind with
      | capacity =>
        simp only [flatLoop, hcl]
        exact le_trans (Nat.le_succ c) (ih (t + 1) (c + 1))
      | quota => simp [flatLoop, hcl]
      | other => simp [flatLoop, hcl]

/-! ### Concrete scenario environments -/

/-- The instance returned by the successful launch in the C8 scenario. -/
def instFd2 : Instance :=
  { id := "ocid1.instance.oc1.phx.abc", lifecycle_state := "PROVISIONING" }

/-- C8 scenario: one configured zone `AD-1` with fault domains
`[fd1, fd2]`; the unpinned and `fd1` attempts hit capacity errors and
the `fd2` attempt succeeds. -/
def envScenario8 : Env :=
  { flagFileExists := false, force := false, dryRun := false, noCycle := false
    envFileExists := true, availabilityDomainCfg := some "AD-1"
    sshKeyExists := true, clientInitOk := true
    listInstancesRes := .ok []
    listADsRes := .ok []
    listFDsRes := fun _ => .ok ["fd1", "fd2"]
    launchRes := fun _ fd =>
      if fd = some "fd2" then .launched instFd2
      else .serviceError "Out of host capacity." "InternalError" }

/-- C6 scenario: two enumerated zones with different fault-domain
counts (`AD-1` has none, `AD-2` has two); every attempt hits a
capacity error. -/
def envScenario6 : Env :=
  { flagFileExists := false, force := false, dryRun := false, noCycle := false
    envFileExists := true, availabilityDomainCfg := none
    sshKeyExists := true, clientInitOk := true
    listInstancesRes := .ok []
    listADsRes := .ok ["AD-1", "AD-2"]
    listFDsRes := fun ad => if ad = "AD-1" then .ok [] else .ok ["fd1", "fd2"]
    launchRes := fun _ _ => .serviceError "Out of host capacity." "InternalError" }

/-- C8. In the run whose search space is one zone `AD-1` with fault
domains `[fd1, fd2]`, where the unpinned and `fd1` attempts return
capacity errors and the `fd2` attempt succeeds: the run exits 0 with
total attempts 3 and capacity-error count 2, the sentinel record is
written with the returned instance id, and no attempt follows the
success. -/
theorem C8_capacity_then_success_scenario :
    main envScenario8 =
      { exitCode := 0,
        trace := [.clientInit, .existCheck, .enumFDs "AD-1",
                  .launch "AD-1" none, .sleep,
                  .launch "AD-1" (some "fd1"), .sleep,
                  .launch "AD-1" (some "fd2"),
                  .writeFlag "ocid1.instance.oc1.phx.abc"],
        total_attempts := 3, capacity_errors := 2 } ∧
    launchesOf (main envScenario8).trace =
      [("AD-1", none), ("AD-1", some "fd1"), ("AD-1", some "fd2")] ∧
    flagWritesOf (main envScenario8).trace = [instFd2.id] := by
  decide

/-- C6 (refuting evaluation). In the run over zones `AD-1` (no fault
domains) and `AD-2` (fault domains `[fd1, fd2]`) where every attempt
hits a capacity error, the run makes 4 attempts and the trace ends with
a sleep: a sleep follows the final attempt of the run, because the
sleep guard `total_attempts < len(availability_domains) *
(1 + len(fault_domains))` uses the current zone's fault-domain count
(4 < 2 * (1 + 2)). -/
theorem C6_sleep_after_final_attempt :
    main envScenario6 =
      { exitCode := 1,
        trace := [.clientInit, .existCheck, .enumADs, .enumFDs "AD-1",
                  .launch "AD-1" none, .sleep, .enumFDs "AD-2",
                  .launch "AD-2" none, .sleep,
                  .launch "AD-2" (some "fd1"), .sleep,
                  .launch "AD-2" (some "fd2"), .sleep],
        total_attempts := 4, capacity_errors := 4 } ∧
    (main envScenario6).trace.getLast? = some Event.sleep := by
  decide

/-- C3. When the sentinel flag file exists and `--force` is not given,
the run exits 0 with an empty event trace: no client construction, no
existence check, no enumeration, no creation call, no sleep, no write. -/
theorem C3_sentinel_gate (env : Env)
    (hflag : env.flagFileExists = true) (hforce : env.force = false) :
    main env = { exitCode := 0, trace := [], total_attempts := 0, capacity_errors := 0 } := by
  simp [main, hflag, hforce]

/-- Environment with the sentinel present and no `--force`. -/
def envFlagged : Env :=
  { flagFileExists := true, force := false, dryRun := false, noCycle := false
    envFileExists := true, availabilityDomainCfg := none
    sshKeyExists := true, clientInitOk := true
    listInstancesRes := .ok []
    listADsRes := .ok ["AD-1"]
    listFDsRes := fun _ => .ok []
    launchRes := fun _ _ => .unexpectedExc }

theorem C3_sentinel_gate_witness :
    main envFlagged = { exitCode := 0, trace := [], total_attempts := 0, capacity_errors := 0 } :=
  C3_sentinel_gate envFlagged rfl rfl

/-- Dry-run environment in which client initialization fails. -/
def envDryRunBadClient : Env :=
  { flagFileExists := false, force := false, dryRun := true, noCycle := false
    envFileExists := true, availabilityDomainCfg := none
    sshKeyExists := true, clientInitOk := false
    listInstancesRes := .ok []
    listADsRes := .ok []
    listFDsRes := fun _ => .ok []
    launchRes := fun _ _ => .unexpectedExc }

/-- C5 (counterexample to the claim as stated). A run with `--dry-run`
in which configuration loading and SSH key loading succeed but client
initialization fails exits with code 1, not 0. -/
theorem C5_dry_run_counterexample :
    envDryRunBadClient.dryRun = true ∧
    envDryRunBadClient.envFileExists = true ∧
    envDryRunBadClient.sshKeyExists = true ∧
    (main envDryRunBadClient).exitCode = 1 := by
  decide

/-- C5 (amended). For every run with `--dry-run` where configuration
loading, SSH key loading and client initialization succeed, no creation
call is made and the run exits 0 (the existence check may still run). -/
theorem C5_dry_run_no_creation (env : Env)
    (hd : env.dryRun = true) (he : env.envFileExists = true)
    (hs : env.sshKeyExists = true) (hc : env.clientInitOk = true) :
    (main env).exitCode = 0 ∧ launchesOf (main env).trace = [] := by
  cases hfg : env.flagFileExists && !env.force with
  | true => simp [main, hfg, launchesOf]
  | false =>
    cases hex : check_if_instance_exists env.listInstancesRes with
    | none => simp [main, hfg, he, hs, hc, hd, hex, launchesOf]
    | some inst =>
      cases hff : env.flagFileExists with
      | false => simp [main, hfg, he, hs, hc, hd, hex, hff, launchesOf]
      | true =>
        have hfo : env.force = true := by rw [hff] at hfg; simpa using hfg
        simp [main, hfg, he, hs, hc, hd, hex, hff, hfo, launchesOf]

/-- Dry-run environment in which everything up to the dry-run stop
succeeds. -/
def envDryRunOk : Env :=
  { envDryRunBadClient with clientInitOk := true }

theorem C5_dry_run_no_creation_witness :
    (main envDryRunOk).exitCode = 0 ∧ launchesOf (main envDryRunOk).trace = [] :=
  C5_dry_run_no_creation envDryRunOk rfl rfl rfl rfl

/-- C2. For every zone the orchestrator tries the unpinned attempt
first, then that zone's fault domains in enumerated order; in a run
where every attempt hits a capacity error (so no early exit cuts the
sequence short), the launched pairs are exactly the concatenation, over
the zones in order, of `(zone, none)` followed by `(zone, fd)` for each
enumerated fault domain in order; and a zone whose fault-domain
enumeration is empty contributes exactly one (unpinned) attempt. -/
theorem C2_attempt_sequence (env : Env) (ads : List String)
    (h : ReachesLoop env ads)
    (hcap : ∀ ad fd, create_instance (env.launchRes ad fd) = .failure .capacity) :
    launchesOf (main env).trace =
      ads.flatMap (fun ad =>
        (([none] ++ (get_fault_domains (env.listFDsRes ad)).map some).map
          (fun fd => (ad, fd)))) ∧
    (∀ ad, get_fault_domains (env.listFDsRes ad) = [] →
      (([none] ++ (get_fault_domains (env.listFDsRes ad)).map some).map
        (fun fd => (ad, fd))) = [(ad, none)]) := by
  constructor
  · have hm := main_flat env ads h
    have hall : ∀ p ∈ allPairs env.listFDsRes ads,
        create_instance (env.launchRes p.1 p.2) = .failure .capacity :=
      fun p _ => hcap p.1 p.2
    rw [flatLoop_all_capacity _ _ 0 0 hall] at hm
    obtain ⟨_, _, _, hl, _⟩ := hm
    simpa [allPairs, zonePairs] using hl
  · intro ad hfd
    rw [hfd]
    rfl

/-- All-capacity environment for C2: two enumerated zones, the first
with a failed fault-domain enumeration, the second with two fault
domains; every attempt hits a capacity error. -/
def envAllCap : Env :=
  { flagFileExists := false, force := false, dryRun := false, noCycle := false
    envFileExists := true, availabilityDomainCfg := none
    sshKeyExists := true, clientInitOk := true
    listInstancesRes := .ok []
    listADsRes := .ok ["AD-1", "AD-2"]
    listFDsRes := fun ad => if ad = "AD-1" then .error () else .ok ["fd1", "fd2"]
    launchRes := fun _ _ => .serviceError "Out of host capacity." "InternalError" }

theorem C2_attempt_sequence_witness :
    launchesOf (main envAllCap).trace =
      [("AD-1", (none : Option String)),
       ("AD-2", none), ("AD-2", some "fd1"), ("AD-2", some "fd2")] :=
  ((C2_attempt_sequence envAllCap ["AD-1", "AD-2"]
      ⟨Or.inl rfl, rfl, rfl, rfl, rfl, rfl, Or.inr ⟨rfl, rfl, rfl, by decide⟩⟩
      (fun _ _ => rfl)).1).trans (by decide)

/-- C4. In every run that reaches the attempt loop, the pairs before
the first non-capacity attempt each increment the capacity-error
counter and the loop continues; if that first non-capacity attempt
classifies as quota-or-limit or other, the run stops there with exit
code 1, having attempted exactly the capacity prefix plus that one
pair; if instead it is yet another capacity error with a pair still
pending, the next pair is attempted too.  With an empty prefix this
gives the particular case: a first attempt classified quota-or-limit
ends the run with total attempts = 1 even when more zones remain. -/
theorem C4_capacity_continues_fatal_stops (env : Env) (ads : List String)
    (P R : List (String × Option String)) (p : String × Option String)
    (h : ReachesLoop env ads)
    (hsplit : allPairs env.listFDsRes ads = P ++ p :: R)
    (hP : ∀ q ∈ P, create_instance (env.launchRes q.1 q.2) = .failure .capacity) :
    ((create_instance (env.launchRes p.1 p.2) = .failure .quota ∨
      create_instance (env.launchRes p.1 p.2) = .failure .other) →
      (main env).exitCode = 1 ∧
      (main env).total_attempts = P.length + 1 ∧
      (main env).capacity_errors = P.length ∧
      launchesOf (main env).trace = P ++ [p]) ∧
    (create_instance (env.launchRes p.1 p.2) = .failure .capacity →
      (main env).capacity_errors ≥ P.length + 1 ∧
      (∀ q Q, R = q :: Q →
        ∃ tail, launchesOf (main env).trace = P ++ p :: q :: tail)) := by
  have hm := main_flat env ads h
  rw [hsplit, flatLoop_capacity_prefix _ P (p :: R) 0 0 hP] at hm
  simp only [Nat.zero_add] at hm
  constructor
  · intro hq
    rw [flatLoop_head_fatal _ p R _ _ hq] at hm
    obtain ⟨he, ht, hc, hl, _⟩ := hm
    refine ⟨by simpa using he, by simpa using ht, by simpa using hc, ?_⟩
    simpa using hl
  · intro hq
    rw [flatLoop_head_capacity _ p R _ _ hq] at hm
    obtain ⟨_, _, hc, hl, _⟩ := hm
    constructor
    · have hge := flatLoop_capErrs_ge env.launchRes R (P.length + 1) (P.length + 1)
      rw [hc]
      simpa using hge
    · rintro q Q rfl
      obtain ⟨tail2, htail2⟩ :=
        flatLoop_head_launched env.launchRes q Q (P.length + 1) (P.length + 1)
      refine ⟨tail2, ?_⟩
      rw [hl]
      simp [htail2]

/-- Quota-error environment for C4: two enumerated zones remain in the
search space, but the very first (unpinned) attempt hits a quota
error. -/
def envQuotaFirst : Env :=
  { flagFileExists := false, force := false, dryRun := false, noCycle := false
    envFileExists := true, availabilityDomainCfg := none
    sshKeyExists := true, clientInitOk := true
    listInstancesRes := .ok []
    listADsRes := .ok ["AD-1", "AD-2"]
    listFDsRes := fun _ => .ok []
    launchRes := fun _ _ => .serviceError "Quota exceeded for this resource." "QuotaExceeded" }

theorem C4_capacity_continues_fatal_stops_witness :
    (main envQuotaFirst).exitCode = 1 ∧
    (main envQuotaFirst).total_attempts = 1 ∧
    (main envQuotaFirst).capacity_errors = 0 ∧
    launchesOf (main envQuotaFirst).trace = [("AD-1", none)] := by
  have h := (C4_capacity_continues_fatal_stops envQuotaFirst ["AD-1", "AD-2"]
    [] [("AD-2", none)] ("AD-1", none)
    ⟨Or.inl rfl, rfl, rfl, rfl, rfl, rfl, Or.inr ⟨rfl, rfl, rfl, by decide⟩⟩
    (by decide) (by simp)).1 (Or.inl rfl)
  exact ⟨h.1, by simpa using h.2.1, by simpa using h.2.2.1, by simpa using h.2.2.2⟩

/-- C7. Enumeration failures are asymmetric.  (a) If availability-domain
enumeration yields the empty sequence, the run exits 1 without issuing
any creation call.  (b) If fault-domain enumeration for the zone being
tried raises (collapsing to the empty sequence), the run is not
aborted: that zone is still attempted exactly once, without a fault
domain. -/
theorem C7_enumeration_failure_asymmetry (env : Env) (ad : String) :
    ((env.flagFileExists = false ∨ env.force = true) →
      env.envFileExists = true → env.sshKeyExists = true → env.clientInitOk = true →
      check_if_instance_exists env.listInstancesRes = none →
      env.dryRun = false → env.noCycle = false → env.availabilityDomainCfg = none →
      get_all_availability_domains env.listADsRes = [] →
      (main env).exitCode = 1 ∧ launchesOf (main env).trace = []) ∧
    (ReachesLoop env [ad] →
      env.listFDsRes ad = .error () →
      launchesOf (main env).trace = [(ad, none)]) := by
  constructor
  · intro hgate henv hssh hcli hex hdry hnc hcfg hads
    have hfg : (env.flagFileExists && !env.force) = false := by
      rcases hgate with h | h <;> simp [h]
    simp [main, hfg, henv, hssh, hcli, hex, hdry, hnc, hcfg, hads]
  · intro h hfd
    have hm := main_flat env [ad] h
    have hpairs : allPairs env.listFDsRes [ad] = [(ad, none)] := by
      simp [allPairs, zonePairs, hfd, get_fault_domains]
    rw [hpairs] at hm
    obtain ⟨_, _, _, hl, _⟩ := hm
    rw [hl, flatLoop_singleton_launched]
    simp

/-- Environment for C7(a): availability-domain enumeration raises. -/
def envNoADs : Env :=
  { flagFileExists := false, force := false, dryRun := false, noCycle := false
    envFileExists := true, availabilityDomainCfg := none
    sshKeyExists := true, clientInitOk := true
    listInstancesRes := .ok []
    listADsRes := .error ()
    listFDsRes := fun _ => .ok []
    launchRes := fun _ _ => .unexpectedExc }

/-- Environment for C7(b): the configured zone's fault-domain
enumeration raises. -/
def envFdEnumFails : Env :=
  { flagFileExists := false, force := false, dryRun := false, noCycle := false
    envFileExists := true, availabilityDomainCfg := some "AD-1"
    sshKeyExists := true, clientInitOk := true
    listInstancesRes := .ok []
    listADsRes := .ok []
    listFDsRes := fun _ => .error ()
    launchRes := fun _ _ => .serviceError "Out of host capacity." "InternalError" }

theorem C7_enumeration_failure_asymmetry_witness :
    ((main envNoADs).exitCode = 1 ∧ launchesOf (main envNoADs).trace = []) ∧
    launchesOf (main envFdEnumFails).trace = [("AD-1", none)] :=
  ⟨(C7_enumeration_failure_asymmetry envNoADs "AD-1").1
      (Or.inl rfl) rfl rfl rfl rfl rfl rfl rfl rfl,
   (C7_enumeration_failure_asymmetry envFdEnumFails "AD-1").2
      ⟨Or.inl rfl, rfl, rfl, rfl, rfl, rfl, Or.inl ⟨"AD-1", rfl, rfl⟩⟩ rfl⟩

/-- C10. If the existing-instance lookup raises, `check_if_instance_exists`
returns `None`, and the whole run behaves exactly as if the listing had
returned no instance at all: a failed existence check never aborts the
run and never prevents a creation attempt. -/
theorem C10_exist_check_exception (env : Env) :
    check_if_instance_exists (Except.error ()) = none ∧
    main { env with listInstancesRes := Except.error () } =
      main { env with listInstancesRes := Except.ok [] } := by
  refine ⟨rfl, ?_⟩
  simp only [main, check_if_instance_exists, List.filter_nil, List.head?_nil]

/-! ### Diagnostics CLI (src/helper_scripts.py)

`main` of helper_scripts.py runs the requested operations in a fixed
order and exits 0 iff its `success` accumulator is still true.  The
list operations print their results and catch their own exceptions —
they return `None` and never touch `success`.  `--validate` runs
`validate_config` and, when still successful, `test_authentication` as
a follow-up.  No-argument invocation defaults to `--validate`. -/

/-- The diagnostics CLI flags; `noArgs` models `len(sys.argv) == 1`,
which forces validation. -/
structure DiagArgs where
  testAuth : Bool
  listAds : Bool
  listImages : Bool
  listShapes : Bool
  validate : Bool
  noArgs : Bool
deriving DecidableEq

/-- Outcomes of the diagnostics operations: whether `.env` exists,
whether authentication succeeds, whether each list call succeeds
(raises no exception), and whether `validate_config` passes. -/
structure DiagEnv where
  envFileExists : Bool
  authOk : Bool
  listAdsOk : Bool
  listImagesOk : Bool
  listShapesOk : Bool
  validateOk : Bool
deriving DecidableEq

/-- Models `main` of src/helper_scripts.py (lines 303–355): exit code
paired with the list of operations performed, each with its own
success/failure.  Only `test_authentication` and `validate_config`
feed the `success` accumulator; the list operations are recorded but
swallow their failures. -/
def diag_main (args : DiagArgs) (env : DiagEnv) : Nat × List (String × Bool) :=
  if !env.envFileExists then (1, [])
  else
    let validateReq := args.validate || args.noArgs
    let success := true
    let ops : List (String × Bool) := []
    let (success, ops) :=
      if args.testAuth then (env.authOk && success, ops ++ [("test-auth", env.authOk)])
      else (success, ops)
    let ops := if args.listAds then ops ++ [("list-ads", env.listAdsOk)] else ops
    let ops := if args.listImages then ops ++ [("list-images", env.listImagesOk)] else ops
    let ops := if args.listShapes then ops ++ [("list-shapes", env.listShapesOk)] else ops
    let (success, ops) :=
      if validateReq then
        let success := env.validateOk && success
        let ops := ops ++ [("validate", env.validateOk)]
        if success then (env.authOk && success, ops ++ [("test-auth", env.authOk)])
        else (success, ops)
      else (success, ops)
    (if success then 0 else 1, ops)

/-- Invocation requesting only `--list-ads`. -/
def diagArgsListAds : DiagArgs :=
  { testAuth := false, listAds := true, listImages := false
    listShapes := false, validate := false, noArgs := false }

/-- Diagnostics environment in which listing availability domains
fails (the call raises) while everything else would succeed. -/
def diagEnvAdsFail : DiagEnv :=
  { envFileExists := true, authOk := true, listAdsOk := false
    listImagesOk := true, listShapesOk := true, validateOk := true }

/-- C9 (counterexample to the claim as stated). With `--list-ads` as
the only requested check and the listing failing, the CLI still exits
0: the performed-operations record shows the one requested operation
failed, yet the exit code is not 1. -/
theorem C9_exit_code_counterexample :
    (diag_main diagArgsListAds diagEnvAdsFail).1 = 0 ∧
    (diag_main diagArgsListAds diagEnvAdsFail).2 = [("list-ads", false)] := by
  decide

/-- C9 (amended). For every invocation whose `.env` file exists, the
exit code is 0 iff the auth check passes whenever `--test-auth` is
given, and validation together with its follow-up auth check passes
whenever `--validate` is given or no flags are given; failures of the
list operations never affect the exit code. -/
theorem C9_exit_code_rule (args : DiagArgs) (env : DiagEnv)
    (he : env.envFileExists = true) :
    ((diag_main args env).1 = 0 ↔
      ((args.testAuth = true → env.authOk = true) ∧
       ((args.validate = true ∨ args.noArgs = true) →
         env.validateOk = true ∧ env.authOk = true))) := by
  obtain ⟨a1, a2, a3, a4, a5, a6⟩ := args
  obtain ⟨e1, e2, e3, e4, e5, e6⟩ := env
  simp only at he
  subst he
  revert a1 a2 a3 a4 a5 a6 e2 e3 e4 e5 e6
  decide

/-- Invocation requesting `--test-auth` and `--validate`. -/
def diagArgsAuthValidate : DiagArgs :=
  { testAuth := true, listAds := false, listImages := false
    listShapes := false, validate := true, noArgs := false }

/-- Diagnostics environment in which every operation succeeds. -/
def diagEnvAllOk : DiagEnv :=
  { envFileExists := true, authOk := true, listAdsOk := true
    listImagesOk := true, listShapesOk := true, validateOk := true }

theorem C9_exit_code_rule_witness :
    (diag_main diagArgsAuthValidate diagEnvAllOk).1 = 0 :=
  (C9_exit_code_rule diagArgsAuthValidate diagEnvAllOk rfl).mpr
    ⟨fun _ => rfl, fun _ => ⟨rfl, rfl⟩⟩

end OciHunter
